import Mathlib

/-!
A verification development for the validator consensus-persistence and
duplicate-block-evidence subsystem: a shallow embedding of the saved-tower
envelope, the pluggable tower-storage backends, the duplicate-shred evidence
aggregator, the latest-unprocessed-votes buffer and the feature-set registry,
together with theorems settling the specified properties.
-/

set_option maxRecDepth 10000

namespace Solana

/-! ## Basic wire and crypto model -/

/-- Public keys are modelled as natural numbers; `0` stands for
`Pubkey::default()`, the all-zeroes key. -/
abbrev Pubkey := Nat

/-- Serialized byte strings are modelled as lists of naturals. -/
abbrev Bytes := List Nat

/-- A keypair, identified by its public key. -/
structure Keypair where
  pk : Pubkey
deriving DecidableEq

def Keypair.pubkey (k : Keypair) : Pubkey := k.pk

/-- An ideal signature: signing records the signing key and the exact message,
and verification succeeds exactly when key and message match.  This is the
standard idealisation of the external ed25519 primitives, which are collaborators
outside this subsystem. -/
structure Signature where
  signer : Pubkey
  message : Bytes
deriving DecidableEq

def Keypair.sign_message (k : Keypair) (data : Bytes) : Signature :=
  ⟨k.pk, data⟩

def Signature.verify (s : Signature) (pk : Pubkey) (data : Bytes) : Bool :=
  decide (s.signer = pk ∧ s.message = data)

/-! ## Towers and the saved-tower envelope (`tower_storage.rs`, `tower1_7_14.rs`) -/

/-- Modelled from the spec: `Tower` (defined in `consensus.rs`, which is not
under `src/`) is the validator's consensus snapshot; the spec's data model gives
it a `node_pubkey` plus lockout/vote state, which we abstract into a single
`body` field.  Per the spec's round-trip property its codec round-trips. -/
structure Tower where
  node_pubkey : Pubkey
  body : Nat
deriving DecidableEq

/-- Modelled from the spec: bincode serialization of a `Tower`. -/
def serializeTower (t : Tower) : Bytes := [t.node_pubkey, t.body]

/-- Modelled from the spec: bincode deserialization of a `Tower`
(inverse of `serializeTower` on well-formed input, codec error otherwise). -/
def deserializeTower : Bytes → Option Tower
  | [pk, b] => some ⟨pk, b⟩
  | _ => none

/-- `Tower1_7_14` from `tower1_7_14.rs`: the legacy tower.  The serialized
fields (`threshold_depth`, `vote_state`, ...) are abstracted into `body`; the
three `#[serde(skip)]` fields (`last_vote_tx_blockhash`, `stray_restored_slot`,
`last_switch_threshold_check`) are abstracted into `skipped`, which the codec
drops and restores as the default `0`. -/
structure Tower1_7_14 where
  node_pubkey : Pubkey
  body : Nat
  skipped : Nat
deriving DecidableEq

/-- Bincode serialization of a `Tower1_7_14`: the `#[serde(skip)]` fields are
not transmitted. -/
def serializeTower1714 (t : Tower1_7_14) : Bytes := [t.node_pubkey, t.body]

/-- Bincode deserialization of a `Tower1_7_14`: skipped fields become default. -/
def deserializeTower1714 : Bytes → Option Tower1_7_14
  | [pk, b] => some ⟨pk, b, 0⟩
  | _ => none

/-- The error taxonomy of `consensus::TowerError` restricted to the variants
this subsystem produces. -/
inductive TowerError
  | wrongTower (msg : String)
  | invalidSignature
  | ioError (msg : String)
  | codecError
deriving DecidableEq

/-- The versioned tower decoded from a saved envelope. -/
inductive TowerVersions
  | current (t : Tower)
  | v1_7_14 (t : Tower1_7_14)
deriving DecidableEq

/-- Modelled from the spec: `TowerVersions::convert_to_current` (in
`consensus.rs`, not under `src/`) converts a versioned tower to the current
representation, preserving the node pubkey; on the `Current` variant it is the
identity. -/
def TowerVersions.convert_to_current : TowerVersions → Tower
  | .current t => t
  | .v1_7_14 t => ⟨t.node_pubkey, t.body⟩

/-- Result of a Rust call that may panic (a failed `assert!`), return an error,
or succeed. -/
inductive PResult (ε α : Type) where
  | panicked
  | error (e : ε)
  | ok (a : α)
deriving DecidableEq

/-- `SavedTower` from `tower_storage.rs`: the signed envelope
`{ signature, data, node_pubkey }` where `node_pubkey` is `#[serde(skip)]`. -/
structure SavedTower where
  signature : Signature
  data : Bytes
  node_pubkey : Pubkey
deriving DecidableEq

/-- `SavedTower::new`: reject if the tower's pubkey differs from the signer's,
else encode the tower, sign the bytes and return the envelope. -/
def SavedTower.new (tower : Tower) (keypair : Keypair) : Except TowerError SavedTower :=
  let node_pubkey := keypair.pubkey
  if tower.node_pubkey ≠ node_pubkey then
    .error (.wrongTower ("node_pubkey is " ++ toString node_pubkey ++
      " but found tower for " ++ toString tower.node_pubkey))
  else
    let data := serializeTower tower
    let signature := keypair.sign_message data
    .ok ⟨signature, data, node_pubkey⟩

/-- `SavedTower::try_into_tower`: assert the transient `node_pubkey` field is
still the default value (the failed assertion is a panic), verify the
signature, decode the payload as the current tower version, convert, and check
the decoded pubkey against the expected one. -/
def SavedTower.try_into_tower (s : SavedTower) (node_pubkey : Pubkey) :
    PResult TowerError Tower :=
  if s.node_pubkey ≠ 0 then .panicked
  else if s.signature.verify node_pubkey s.data = false then .error .invalidSignature
  else
    match deserializeTower s.data with
    | none => .error .codecError
    | some t0 =>
      let tower := (TowerVersions.current t0).convert_to_current
      if tower.node_pubkey ≠ node_pubkey then
        .error (.wrongTower ("node_pubkey is " ++ toString node_pubkey ++
          " but found tower for " ++ toString tower.node_pubkey))
      else .ok tower

/-- The effect of `serialize_into` followed by deserialization on the other
side: all fields are transported except `node_pubkey`, which is
`#[serde(skip)]` and comes back as `Pubkey::default()`. -/
def SavedTower.wire_roundtrip (s : SavedTower) : SavedTower :=
  { s with node_pubkey := 0 }

/-- `SavedTower1_7_14` from `tower1_7_14.rs`: same envelope shape. -/
structure SavedTower1_7_14 where
  signature : Signature
  data : Bytes
  node_pubkey : Pubkey
deriving DecidableEq

/-- `SavedTower1_7_14::try_into_tower`: identical to the current version except
the payload decodes as the legacy tower and is converted to current. -/
def SavedTower1_7_14.try_into_tower (s : SavedTower1_7_14) (node_pubkey : Pubkey) :
    PResult TowerError Tower :=
  if s.node_pubkey ≠ 0 then .panicked
  else if s.signature.verify node_pubkey s.data = false then .error .invalidSignature
  else
    match deserializeTower1714 s.data with
    | none => .error .codecError
    | some t0 =>
      let tower := (TowerVersions.v1_7_14 t0).convert_to_current
      if tower.node_pubkey ≠ node_pubkey then
        .error (.wrongTower ("node_pubkey is " ++ toString node_pubkey ++
          " but found tower for " ++ toString tower.node_pubkey))
      else .ok tower

/-! ## Etcd tower-storage backend (`tower_storage.rs`, `EtcdTowerStorage`) -/

/-- The etcd key/value state relevant to one validator pubkey: the values of
the `<pubkey>/instance` and `<pubkey>/tower` keys (`none` = key absent). -/
structure EtcdState where
  instance_key : Option Bytes
  tower_key : Option Bytes
deriving DecidableEq

/-- The message of the lost-lease error,
`format!("Lost etcd instance lock for \x7b\x7d", pubkey)`. -/
def etcd_lock_lost_msg (pk : Pubkey) : String :=
  "Lost etcd instance lock" ++ (" for " ++ toString pk)

/-- `EtcdTowerStorage::load` for pubkey `pk` by a process whose identity is
`instance_id`: transaction 1 unconditionally puts the instance key; transaction
2 reads the tower key guarded by `instance == instance_id` and fails with the
lost-lease error when the compare fails.  A missing tower value yields the
"Saved tower response missing" error (after the lock was still taken). -/
def etcd_load (instance_id : Bytes) (pk : Pubkey) (st : EtcdState) :
    EtcdState × Except TowerError Bytes :=
  let st1 : EtcdState := { st with instance_key := some instance_id }
  if st1.instance_key = some instance_id then
    match st1.tower_key with
    | some v => (st1, .ok v)
    | none => (st1, .error (.ioError "Saved tower response missing"))
  else
    (st1, .error (.ioError (etcd_lock_lost_msg pk)))

/-- `EtcdTowerStorage::store`: one transaction
`if instance == instance_id then put(<pubkey>/tower, value)`; when the compare
fails nothing is mutated and the lost-lease error is returned. -/
def etcd_store (instance_id : Bytes) (pk : Pubkey) (value : Bytes) (st : EtcdState) :
    EtcdState × Except TowerError Unit :=
  if st.instance_key = some instance_id then
    ({ st with tower_key := some value }, .ok ())
  else
    (st, .error (.ioError (etcd_lock_lost_msg pk)))

/-! ## Feature-set registry (`feature_set.rs`) -/

/-- The running state of `solana_sdk::hash::Hasher`: an external cryptographic
hash, modelled as the exact sequence of inputs fed to it (equal input streams
give equal digests). -/
structure Hasher where
  acc : List Nat
deriving DecidableEq

def Hasher.feed (h : Hasher) (k : Pubkey) : Hasher := ⟨h.acc ++ [k]⟩

def Hasher.result (h : Hasher) : List Nat := h.acc

/-- The feature-set `ID` computation from `feature_set.rs`: collect the keys of
`FEATURE_NAMES` (in whatever order the map yields them), sort them, and hash
each identifier in sorted order. -/
def feature_set_id (keys : List Pubkey) : List Nat :=
  ((keys.mergeSort).foldl Hasher.feed ⟨[]⟩).result

/-! ## Latest unprocessed votes (`latest_unprocessed_votes.rs`) -/

/-- The modulus of the 64-bit `AtomicUsize` counter: machine arithmetic wraps. -/
def USIZE : Nat := 2 ^ 64

abbrev Packet := Nat

/-- `LatestUnprocessedVotes`: the map from pubkey to the guarded
`(latest slot, optional packet)` cell, as an association list, plus the atomic
`size` counter. -/
structure LatestUnprocessedVotes where
  latest_votes_per_pubkey : List (Pubkey × (Nat × Option Packet))
  size : Nat
deriving DecidableEq

/-- Association-list lookup of a pubkey's `(slot, packet)` cell. -/
def lookupVote : List (Pubkey × (Nat × Option Packet)) → Pubkey → Option (Nat × Option Packet)
  | [], _ => none
  | (q, e) :: rest, p => if q = p then some e else lookupVote rest p

/-- In-place replacement of a pubkey's cell (no-op when the pubkey is absent),
modelling mutation through the entry's inner lock. -/
def setVote : List (Pubkey × (Nat × Option Packet)) → Pubkey → (Nat × Option Packet) →
    List (Pubkey × (Nat × Option Packet))
  | [], _, _ => []
  | (q, e) :: rest, p, e' =>
    if q = p then (q, e') :: rest else (q, e) :: setVote rest p e'

/-- `LatestUnprocessedVotes::update_vote`, sequential semantics (all lock and
borrow acquisitions succeed): if the pubkey has an entry and the new slot is
strictly greater than the stored slot, replace the cell with
`(slot, Some vote)` — bumping `size` when the evicted packet slot was empty —
and return the evicted packet option; if the stored slot is not smaller,
return `Some vote` untouched; if the pubkey is absent, insert
`(slot, Some vote)`, bump `size`, and return `None`. -/
def update_vote (st : LatestUnprocessedVotes) (pubkey : Pubkey) (slot : Nat) (vote : Packet) :
    Option Packet × LatestUnprocessedVotes :=
  match lookupVote st.latest_votes_per_pubkey pubkey with
  | some (latest_slot, latest_packet) =>
    if latest_slot < slot then
      let size' := if latest_packet = none then (st.size + 1) % USIZE else st.size
      (latest_packet,
        { latest_votes_per_pubkey := setVote st.latest_votes_per_pubkey pubkey (slot, some vote),
          size := size' })
    else
      (some vote, st)
  | none =>
    (none,
      { latest_votes_per_pubkey := st.latest_votes_per_pubkey ++ [(pubkey, (slot, some vote))],
        size := (st.size + 1) % USIZE })

/-- One visit of `drain_unprocessed_votes_by_stake` to a sampled pubkey: if the
map holds an entry for it, take the stored packet option, leave `None` in the
cell, and unconditionally decrement `size` (wrapping machine subtraction). -/
def drain_visit (st : LatestUnprocessedVotes) (pubkey : Pubkey) :
    LatestUnprocessedVotes × Option Packet :=
  match lookupVote st.latest_votes_per_pubkey pubkey with
  | none => (st, none)
  | some (s, pkt) =>
    ({ latest_votes_per_pubkey := setVote st.latest_votes_per_pubkey pubkey (s, none),
       size := (st.size + (USIZE - 1)) % USIZE },
     pkt)

/-- `LatestUnprocessedVotes::drain_unprocessed_votes_by_stake`, sequential
semantics: visit the staked pubkeys in the (externally random,
stake-weighted) sampled order, taking each stored packet; yielded packets are
the present ones, in visit order. -/
def drain_unprocessed_votes_by_stake (st : LatestUnprocessedVotes)
    (order : List Pubkey) : LatestUnprocessedVotes × List Packet :=
  order.foldl
    (fun acc p =>
      let next := drain_visit acc.1 p
      (next.1, acc.2 ++ next.2.toList))
    (st, [])

/-- The number of map entries whose optional packet is present. -/
def presentCount (m : List (Pubkey × (Nat × Option Packet))) : Nat :=
  (m.filter (fun e => e.2.2.isSome)).length

/-- The specified counter invariant: `size` equals the number of entries
holding a non-empty packet. -/
abbrev sizeInvariant (st : LatestUnprocessedVotes) : Prop :=
  st.size = presentCount st.latest_votes_per_pubkey

/-- Trace state 1: one vote inserted for pubkey `7` into the empty buffer. -/
def voteSt1 : LatestUnprocessedVotes := (update_vote ⟨[], 0⟩ 7 5 42).2

/-- Trace state 2: a stake-weighted drain pass visiting pubkey `7`. -/
def voteSt2 : LatestUnprocessedVotes := (drain_unprocessed_votes_by_stake voteSt1 [7]).1

/-- Trace state 3: a second drain pass, visiting the now-emptied entry. -/
def voteSt3 : LatestUnprocessedVotes := (drain_unprocessed_votes_by_stake voteSt2 [7]).1

/-! ## Duplicate-shred evidence aggregator (`cluster_info_entries_listener.rs`) -/

/-- A duplicate-shred gossip chunk: the fields driving the aggregator's control
flow (`slot`, `num_chunks`), with the remaining chunk content abstracted into
`payload`. -/
structure DuplicateShred where
  slot : Nat
  num_chunks : Nat
  payload : Nat
deriving DecidableEq

/-- The log events `ingest_duplicate_proof_chunk` can emit. -/
inductive LogEvent
  | storeError
  | decodeWarn
  | corruptProof
deriving DecidableEq

/-- The observable outcome of one `ingest_duplicate_proof_chunk` call: the
blockstore duplicate-slot index afterwards, the `store_duplicate_slot` calls
attempted, the slots sent on the duplicate-slot channel, and the log events. -/
structure IngestOut where
  bs : List Nat
  store_calls : List (Nat × Nat × Nat)
  sent : List Nat
  log : List LogEvent
deriving DecidableEq

/-- `ingest_duplicate_proof_chunk`.  `into_shreds` stands for the external
`duplicate_shred::into_shreds` (with the leader-schedule resolver folded in);
`store_fails` is the fault model for `Blockstore::store_duplicate_slot` (on
success the slot is added to the duplicate index, on failure the blockstore is
unchanged and the failure is logged).  Note the channel send is executed after
the store attempt in both cases. -/
def ingest_duplicate_proof_chunk
    (into_shreds : List DuplicateShred → Except String (Nat × Nat))
    (store_fails : Nat → Bool)
    (bs : List Nat) (slot : Nat)
    (chunks : List DuplicateShred) (num_chunks : Nat) : IngestOut :=
  match compare chunks.length num_chunks with
  | .eq =>
    match into_shreds chunks with
    | .ok (p1, p2) =>
      if store_fails slot then
        { bs := bs, store_calls := [(slot, p1, p2)], sent := [slot], log := [.storeError] }
      else
        { bs := slot :: bs, store_calls := [(slot, p1, p2)], sent := [slot], log := [] }
    | .error _ =>
      { bs := bs, store_calls := [], sent := [], log := [.decodeWarn] }
  | .gt => { bs := bs, store_calls := [], sent := [], log := [.corruptProof] }
  | .lt => { bs := bs, store_calls := [], sent := [], log := [] }

/-- One `chunks_per_slot.entry(chunk.slot)` step: `Vacant` inserts
`(slot, vec![chunk], chunk.num_chunks as usize)`, `Occupied` pushes the chunk
and leaves the recorded `num_chunks` untouched. -/
def insertChunk (m : List (Nat × List DuplicateShred × Nat)) (c : DuplicateShred) :
    List (Nat × List DuplicateShred × Nat) :=
  match m with
  | [] => [(c.slot, [c], c.num_chunks)]
  | (s, chs, n) :: rest =>
    if s = c.slot then (s, chs ++ [c], n) :: rest
    else (s, chs, n) :: insertChunk rest c

/-- Building the per-pass `chunks_per_slot` map from the (already filtered)
chunk stream. -/
def buildChunksPerSlot (chunks : List DuplicateShred) :
    List (Nat × List DuplicateShred × Nat) :=
  chunks.foldl insertChunk []

/-- Lookup in the `chunks_per_slot` association list. -/
def lookupSlotEntry (m : List (Nat × List DuplicateShred × Nat)) (s : Nat) :
    Option (List DuplicateShred × Nat) :=
  match m with
  | [] => none
  | (s', chs, n) :: rest => if s' = s then some (chs, n) else lookupSlotEntry rest s

/-- The cumulative observable state of one aggregation pass: the blockstore
duplicate index, the slots sent on the duplicate-slot channel, and the slots
for which `ingest_duplicate_proof_chunk` was invoked. -/
structure PassOut where
  bs : List Nat
  sent : List Nat
  ingested : List Nat
deriving DecidableEq

/-- One step of the per-slot ingestion fold: run
`ingest_duplicate_proof_chunk` for a `(slot, (chunks, num_chunks))` entry,
accumulating blockstore, channel and call history. -/
def ingestStep (into_shreds : List DuplicateShred → Except String (Nat × Nat))
    (store_fails : Nat → Bool) (acc : PassOut)
    (e : Nat × List DuplicateShred × Nat) : PassOut :=
  let out := ingest_duplicate_proof_chunk into_shreds store_fails acc.bs e.1 e.2.1 e.2.2
  { bs := out.bs, sent := acc.sent ++ out.sent, ingested := acc.ingested ++ [e.1] }

/-- Run `ingest_duplicate_proof_chunk` on every `(slot, (chunks, num_chunks))`
entry of a `chunks_per_slot` map, threading the blockstore. -/
def ingestEntries (into_shreds : List DuplicateShred → Except String (Nat × Nat))
    (store_fails : Nat → Bool) (acc : PassOut)
    (m : List (Nat × List DuplicateShred × Nat)) : PassOut :=
  m.foldl (ingestStep into_shreds store_fails) acc

/-- Processing of one pubkey inside the pass (the body of the `for_each` in
`reconstruct_duplicate_shred_proofs_loop`): query the peer's chunks from
gossip, filter out chunks whose slot the blockstore already reports duplicate
(`get_duplicate_slot(slot).is_none()`), build `chunks_per_slot`, and ingest
each entry. -/
def processPubkey (into_shreds : List DuplicateShred → Except String (Nat × Nat))
    (store_fails : Nat → Bool) (acc : PassOut)
    (gossip_chunks : List DuplicateShred) : PassOut :=
  let filtered := gossip_chunks.filter (fun c => decide (c.slot ∉ acc.bs))
  ingestEntries into_shreds store_fails acc (buildChunksPerSlot filtered)

/-- One aggregation pass over a batch of signalled pubkeys, `views` giving the
gossip layer's duplicate-shred chunks for each pubkey in batch order. -/
def processPass (into_shreds : List DuplicateShred → Except String (Nat × Nat))
    (store_fails : Nat → Bool) (bs0 : List Nat)
    (views : List (List DuplicateShred)) : PassOut :=
  views.foldl (processPubkey into_shreds store_fails) { bs := bs0, sent := [], ingested := [] }

/-! ## Theorems -/

/-- Claim C3 counterexample: for the tower with pubkey `1` and the signer with
pubkey `1`, `SavedTower::new` succeeds, but `try_into_tower` applied directly
to the resulting envelope hits the `assert_eq!(self.node_pubkey,
Pubkey::default())` assertion and panics instead of returning the tower. -/
theorem savedTower_new_then_try_panics :
    SavedTower.new ⟨1, 0⟩ ⟨1⟩ = .ok ⟨⟨1, [1, 0]⟩, [1, 0], 1⟩ ∧
    SavedTower.try_into_tower ⟨⟨1, [1, 0]⟩, [1, 0], 1⟩ 1 = .panicked ∧
    SavedTower.try_into_tower ⟨⟨1, [1, 0]⟩, [1, 0], 1⟩ 1 ≠ .ok ⟨1, 0⟩ := by
  refine ⟨rfl, rfl, ?_⟩
  decide

/-- Claim C3 (amended): for every tower `T` and signer `K` with
`T.node_pubkey = K.pubkey`, `SavedTower::new(T, K)` succeeds, and
`try_into_tower(K.pubkey)` applied to the envelope as it arrives from
deserialization on load (the `#[serde(skip)]` `node_pubkey` field zeroed)
returns a tower equal to `T`. -/
theorem savedTower_roundtrip (t : Tower) (k : Keypair) (h : t.node_pubkey = k.pubkey) :
    ∃ s : SavedTower, SavedTower.new t k = .ok s ∧
      SavedTower.try_into_tower s.wire_roundtrip k.pubkey = .ok t := by
  rcases t with ⟨tp, tb⟩
  rcases k with ⟨kp⟩
  have h' : tp = kp := h
  subst h'
  refine ⟨⟨Keypair.sign_message ⟨tp⟩ (serializeTower ⟨tp, tb⟩), serializeTower ⟨tp, tb⟩, tp⟩, ?_, ?_⟩
  · simp [SavedTower.new, Keypair.pubkey]
  · simp [SavedTower.try_into_tower, SavedTower.wire_roundtrip, Signature.verify,
      Keypair.sign_message, Keypair.pubkey, serializeTower, deserializeTower,
      TowerVersions.convert_to_current]

/-- Witness for `savedTower_roundtrip` at the tower `(3, 5)` and signer `3`. -/
theorem savedTower_roundtrip_witness :
    ∃ s : SavedTower, SavedTower.new ⟨3, 5⟩ ⟨3⟩ = .ok s ∧
      SavedTower.try_into_tower s.wire_roundtrip (Keypair.pubkey ⟨3⟩) = .ok ⟨3, 5⟩ :=
  savedTower_roundtrip ⟨3, 5⟩ ⟨3⟩ rfl

/-- Claim C4: an envelope (current or legacy) whose payload is signed under
pubkey `P`, arriving from load with the transient `node_pubkey` zeroed, fails
`try_into_tower(P')` for every expected pubkey `P' ≠ P` with `WrongTower` or
`InvalidSignature`, and never returns a tower. -/
theorem try_into_tower_wrong_pubkey (dat : Bytes) (P Pe : Pubkey) (h : Pe ≠ P) :
    ((∃ m, SavedTower.try_into_tower ⟨⟨P, dat⟩, dat, 0⟩ Pe = .error (.wrongTower m)) ∨
      SavedTower.try_into_tower ⟨⟨P, dat⟩, dat, 0⟩ Pe = .error .invalidSignature) ∧
    (∀ t, SavedTower.try_into_tower ⟨⟨P, dat⟩, dat, 0⟩ Pe ≠ .ok t) ∧
    ((∃ m, SavedTower1_7_14.try_into_tower ⟨⟨P, dat⟩, dat, 0⟩ Pe = .error (.wrongTower m)) ∨
      SavedTower1_7_14.try_into_tower ⟨⟨P, dat⟩, dat, 0⟩ Pe = .error .invalidSignature) ∧
    (∀ t, SavedTower1_7_14.try_into_tower ⟨⟨P, dat⟩, dat, 0⟩ Pe ≠ .ok t) := by
  have hv : Signature.verify ⟨P, dat⟩ Pe dat = false := by
    simp only [Signature.verify, decide_eq_false_iff_not]
    exact fun hh => h hh.1.symm
  have h1 : SavedTower.try_into_tower ⟨⟨P, dat⟩, dat, 0⟩ Pe = .error .invalidSignature := by
    simp [SavedTower.try_into_tower, hv]
  have h2 : SavedTower1_7_14.try_into_tower ⟨⟨P, dat⟩, dat, 0⟩ Pe = .error .invalidSignature := by
    simp [SavedTower1_7_14.try_into_tower, hv]
  refine ⟨Or.inr h1, ?_, Or.inr h2, ?_⟩
  · intro t ht
    rw [h1] at ht
    exact PResult.noConfusion ht
  · intro t ht
    rw [h2] at ht
    exact PResult.noConfusion ht

/-- Witness for `try_into_tower_wrong_pubkey` with signing pubkey `1` and
expected pubkey `2`. -/
theorem try_into_tower_wrong_pubkey_witness :
    ((∃ m, SavedTower.try_into_tower ⟨⟨1, []⟩, [], 0⟩ 2 = .error (.wrongTower m)) ∨
      SavedTower.try_into_tower ⟨⟨1, []⟩, [], 0⟩ 2 = .error .invalidSignature) ∧
    (∀ t, SavedTower.try_into_tower ⟨⟨1, []⟩, [], 0⟩ 2 ≠ .ok t) ∧
    ((∃ m, SavedTower1_7_14.try_into_tower ⟨⟨1, []⟩, [], 0⟩ 2 = .error (.wrongTower m)) ∨
      SavedTower1_7_14.try_into_tower ⟨⟨1, []⟩, [], 0⟩ 2 = .error .invalidSignature) ∧
    (∀ t, SavedTower1_7_14.try_into_tower ⟨⟨1, []⟩, [], 0⟩ 2 ≠ .ok t) :=
  try_into_tower_wrong_pubkey [] 1 2 (by decide)

/-- `EtcdTowerStorage::load` leaves the state with the instance key overwritten
by the caller's identity and the tower key untouched. -/
theorem etcd_load_state (i : Bytes) (pk : Pubkey) (st : EtcdState) :
    (etcd_load i pk st).1 = { st with instance_key := some i } := by
  rcases st with ⟨ik, tk⟩
  cases tk <;> simp [etcd_load]

/-- Claim C2: after processes with distinct instance identities `a` then `b`
both perform the etcd `load(P)` acquisition, the earlier caller's `store`
returns an `IoError` whose message contains "Lost etcd instance lock" and does
not modify the `<pubkey>/tower` key, while the most recent caller's `store`
succeeds. -/
theorem etcd_store_exclusive (a b : Bytes) (pk : Pubkey) (st0 : EtcdState) (v w : Bytes)
    (hab : a ≠ b) :
    (etcd_store a pk v (etcd_load b pk (etcd_load a pk st0).1).1).2 =
        .error (.ioError (etcd_lock_lost_msg pk)) ∧
    (etcd_store a pk v (etcd_load b pk (etcd_load a pk st0).1).1).1.tower_key =
        (etcd_load b pk (etcd_load a pk st0).1).1.tower_key ∧
    (∃ post, etcd_lock_lost_msg pk = "Lost etcd instance lock" ++ post) ∧
    (etcd_store b pk w
        (etcd_store a pk v (etcd_load b pk (etcd_load a pk st0).1).1).1).2 = .ok () := by
  have hba : b ≠ a := Ne.symm hab
  have h2 : (etcd_load b pk (etcd_load a pk st0).1).1.instance_key = some b := by
    rw [etcd_load_state]
  have hfailA : etcd_store a pk v (etcd_load b pk (etcd_load a pk st0).1).1 =
      ((etcd_load b pk (etcd_load a pk st0).1).1,
        .error (.ioError (etcd_lock_lost_msg pk))) := by
    unfold etcd_store
    rw [h2]
    simp [hba]
  refine ⟨by rw [hfailA], by rw [hfailA], ⟨" for " ++ toString pk, rfl⟩, ?_⟩
  rw [hfailA]
  unfold etcd_store
  rw [h2]
  simp

/-- Witness for `etcd_store_exclusive`: identities `[0]` and `[1]` racing for
pubkey `7` from the empty etcd state. -/
theorem etcd_store_exclusive_witness :
    (etcd_store [0] 7 [5] (etcd_load [1] 7 (etcd_load [0] 7 ⟨none, none⟩).1).1).2 =
        .error (.ioError (etcd_lock_lost_msg 7)) ∧
    (etcd_store [1] 7 [6]
        (etcd_store [0] 7 [5] (etcd_load [1] 7 (etcd_load [0] 7 ⟨none, none⟩).1).1).1).2 =
        .ok () :=
  ⟨(etcd_store_exclusive [0] [1] 7 ⟨none, none⟩ [5] [6] (by decide)).1,
   (etcd_store_exclusive [0] [1] 7 ⟨none, none⟩ [5] [6] (by decide)).2.2.2⟩

/-- Claim C9: the feature-set ID is a function of the identifier set alone —
feeding the hasher the sorted identifiers makes any two computations over
permuted key sequences (different map iteration or insertion orders) produce
the same ID. -/
theorem feature_set_id_order_independent (k1 k2 : List Pubkey) (h : k1.Perm k2) :
    feature_set_id k1 = feature_set_id k2 := by
  unfold feature_set_id
  have hs : k1.mergeSort = k2.mergeSort :=
    List.eq_of_perm_of_sorted
      ((List.mergeSort_perm k1 _).trans (h.trans (List.mergeSort_perm k2 _).symm))
      (List.sorted_mergeSort' k1) (List.sorted_mergeSort' k2)
  rw [hs]

/-- Witness for `feature_set_id_order_independent` on the two orderings of the
identifier set consisting of `1` and `2`. -/
theorem feature_set_id_order_independent_witness :
    feature_set_id [2, 1] = feature_set_id [1, 2] :=
  feature_set_id_order_independent [2, 1] [1, 2] (by decide)

theorem lookupVote_setVote (m : List (Pubkey × (Nat × Option Packet))) (p : Pubkey)
    (e e0 : Nat × Option Packet) (h : lookupVote m p = some e0) :
    lookupVote (setVote m p e) p = some e := by
  induction m with
  | nil => simp [lookupVote] at h
  | cons hd tl ih =>
    rcases hd with ⟨q, e1⟩
    by_cases hq : q = p
    · simp [lookupVote, setVote, hq]
    · simp only [lookupVote, setVote, hq, if_false] at h ⊢
      exact ih h

theorem lookupVote_append_last (m : List (Pubkey × (Nat × Option Packet))) (p : Pubkey)
    (x : Nat × Option Packet) (h : lookupVote m p = none) :
    lookupVote (m ++ [(p, x)]) p = some x := by
  induction m with
  | nil => simp [lookupVote]
  | cons hd tl ih =>
    rcases hd with ⟨q, e1⟩
    by_cases hq : q = p
    · simp [lookupVote, hq] at h
    · simp only [List.cons_append, lookupVote, hq, if_false] at h ⊢
      exact ih h

/-- Claim C8: `update_vote(P, s, v)` leaves the stored tuple untouched and
returns `Some v` when an entry with slot `s' ≥ s` exists; replaces the tuple
with `(s, Some v)` and returns the previously stored packet option when
`s > s'`; and inserts `(s, Some v)` returning `None` when no entry exists. -/
theorem update_vote_spec (st : LatestUnprocessedVotes) (p : Pubkey) (s : Nat) (v : Packet) :
    (∀ s' v', lookupVote st.latest_votes_per_pubkey p = some (s', v') → s ≤ s' →
        update_vote st p s v = (some v, st)) ∧
    (∀ s' v', lookupVote st.latest_votes_per_pubkey p = some (s', v') → s' < s →
        (update_vote st p s v).1 = v' ∧
        lookupVote (update_vote st p s v).2.latest_votes_per_pubkey p = some (s, some v)) ∧
    (lookupVote st.latest_votes_per_pubkey p = none →
        (update_vote st p s v).1 = none ∧
        lookupVote (update_vote st p s v).2.latest_votes_per_pubkey p = some (s, some v)) := by
  refine ⟨?_, ?_, ?_⟩
  · intro s' v' h hle
    unfold update_vote
    rw [h]
    simp [Nat.not_lt.mpr hle]
  · intro s' v' h hlt
    unfold update_vote
    rw [h]
    simp only [hlt, if_true]
    exact ⟨by trivial, lookupVote_setVote _ _ _ _ h⟩
  · intro h
    unfold update_vote
    rw [h]
    exact ⟨by trivial, lookupVote_append_last _ _ _ h⟩

/-- Witness for `update_vote_spec`: a buffer holding `(5, Some 9)` for pubkey
`1`, exercised with an older slot, a newer slot, and an unknown pubkey. -/
theorem update_vote_spec_witness :
    update_vote ⟨[(1, (5, some 9))], 1⟩ 1 4 8 = (some 8, ⟨[(1, (5, some 9))], 1⟩) ∧
    (update_vote ⟨[(1, (5, some 9))], 1⟩ 1 6 8).1 = some 9 ∧
    lookupVote (update_vote ⟨[(1, (5, some 9))], 1⟩ 1 6 8).2.latest_votes_per_pubkey 1 =
      some (6, some 8) ∧
    (update_vote ⟨[(1, (5, some 9))], 1⟩ 2 6 8).1 = none := by
  refine ⟨(update_vote_spec ⟨[(1, (5, some 9))], 1⟩ 1 4 8).1 5 (some 9) (by decide) (by decide),
    ((update_vote_spec ⟨[(1, (5, some 9))], 1⟩ 1 6 8).2.1 5 (some 9) (by decide) (by decide)).1,
    ((update_vote_spec ⟨[(1, (5, some 9))], 1⟩ 1 6 8).2.1 5 (some 9) (by decide) (by decide)).2,
    ((update_vote_spec ⟨[(1, (5, some 9))], 1⟩ 2 6 8).2.2 (by decide)).1⟩

/-- Claim C7 (code bug): the counter invariant holds after the insertion and
after the first drain, but a second drain pass that visits the already-emptied
entry for pubkey `7` decrements the wrapping `usize` counter anyway, leaving
`size = 2^64 - 1` while no packet is present. -/
theorem drain_breaks_size_invariant :
    sizeInvariant voteSt1 ∧ sizeInvariant voteSt2 ∧
    voteSt3.latest_votes_per_pubkey = [(7, (5, none))] ∧
    voteSt3.size = USIZE - 1 ∧ ¬ sizeInvariant voteSt3 := by
  refine ⟨by decide, by decide, by decide, by decide, by decide⟩

/-- Claim C1 counterexample: a complete single-chunk proof whose decode
succeeds but whose blockstore write fails is still sent on the duplicate-slot
channel — the store failure is only logged. -/
theorem ingest_sends_despite_store_error :
    ingest_duplicate_proof_chunk (fun _ => Except.ok (0, 0)) (fun _ => true) [] 5
        [⟨5, 1, 0⟩] 1 =
      { bs := [], store_calls := [(5, 0, 0)], sent := [5], log := [.storeError] } ∧
    (ingest_duplicate_proof_chunk (fun _ => Except.ok (0, 0)) (fun _ => true) [] 5
        [⟨5, 1, 0⟩] 1).sent ≠ [] := by
  exact ⟨rfl, by decide⟩

/-- Claim C1 (amended): whenever `chunks.len() == num_chunks` and `into_shreds`
succeeds, the slot is sent on the duplicate-slot channel regardless of whether
the preceding blockstore write succeeded or failed. -/
theorem ingest_sends_whenever_decode_succeeds
    (into_shreds : List DuplicateShred → Except String (Nat × Nat))
    (store_fails : Nat → Bool) (bs : List Nat) (slot : Nat)
    (chunks : List DuplicateShred) (num_chunks : Nat) (p1 p2 : Nat)
    (hlen : chunks.length = num_chunks)
    (hok : into_shreds chunks = .ok (p1, p2)) :
    (ingest_duplicate_proof_chunk into_shreds store_fails bs slot chunks num_chunks).sent
      = [slot] := by
  have h1 : compare chunks.length num_chunks = Ordering.eq := Nat.compare_eq_eq.mpr hlen
  unfold ingest_duplicate_proof_chunk
  simp only [h1, hok]
  cases hs : store_fails slot <;> simp [hs]

/-- Witness for `ingest_sends_whenever_decode_succeeds` on a complete
single-chunk proof with a succeeding blockstore. -/
theorem ingest_sends_whenever_decode_succeeds_witness :
    (ingest_duplicate_proof_chunk (fun _ => Except.ok (1, 2)) (fun _ => false) [] 3
        [⟨3, 1, 9⟩] 1).sent = [3] :=
  ingest_sends_whenever_decode_succeeds (fun _ => Except.ok (1, 2)) (fun _ => false) [] 3
    [⟨3, 1, 9⟩] 1 1 2 (by decide) rfl

/-- Claim C6: when `chunks.len()` differs from `num_chunks`, no blockstore
write is attempted and nothing is sent; an overshoot only logs the corrupt
proof, an undershoot is completely silent. -/
theorem ingest_mismatch_is_noop
    (into_shreds : List DuplicateShred → Except String (Nat × Nat))
    (store_fails : Nat → Bool) (bs : List Nat) (slot : Nat)
    (chunks : List DuplicateShred) (num_chunks : Nat)
    (h : chunks.length ≠ num_chunks) :
    (ingest_duplicate_proof_chunk into_shreds store_fails bs slot chunks num_chunks).bs
        = bs ∧
    (ingest_duplicate_proof_chunk into_shreds store_fails bs slot chunks
        num_chunks).store_calls = [] ∧
    (ingest_duplicate_proof_chunk into_shreds store_fails bs slot chunks num_chunks).sent
        = [] ∧
    (num_chunks < chunks.length →
      (ingest_duplicate_proof_chunk into_shreds store_fails bs slot chunks num_chunks).log
        = [.corruptProof]) ∧
    (chunks.length < num_chunks →
      (ingest_duplicate_proof_chunk into_shreds store_fails bs slot chunks num_chunks).log
        = []) := by
  rcases Nat.lt_trichotomy chunks.length num_chunks with hlt | heq | hgt
  · have h1 : compare chunks.length num_chunks = Ordering.lt := by
      simp [Nat.compare_eq_lt]
      omega
    unfold ingest_duplicate_proof_chunk
    simp only [h1]
    exact ⟨by trivial, by trivial, by trivial, fun h2 => absurd h2 (by omega),
      fun _ => by trivial⟩
  · exact absurd heq h
  · have h1 : compare chunks.length num_chunks = Ordering.gt := by
      simp [Nat.compare_eq_gt]
      omega
    unfold ingest_duplicate_proof_chunk
    simp only [h1]
    exact ⟨by trivial, by trivial, by trivial, fun _ => by trivial,
      fun h2 => absurd h2 (by omega)⟩

/-- Witness for `ingest_mismatch_is_noop`: an undershoot (no chunks yet) and an
overshoot (two chunks claiming one). -/
theorem ingest_mismatch_is_noop_witness :
    (ingest_duplicate_proof_chunk (fun _ => Except.ok (0, 0)) (fun _ => false) [4] 5
        [] 1).sent = [] ∧
    (ingest_duplicate_proof_chunk (fun _ => Except.ok (0, 0)) (fun _ => false) [4] 5
        [] 1).log = [] ∧
    (ingest_duplicate_proof_chunk (fun _ => Except.ok (0, 0)) (fun _ => false) [4] 5
        [⟨5, 1, 0⟩, ⟨5, 1, 1⟩] 1).bs = [4] ∧
    (ingest_duplicate_proof_chunk (fun _ => Except.ok (0, 0)) (fun _ => false) [4] 5
        [⟨5, 1, 0⟩, ⟨5, 1, 1⟩] 1).log = [.corruptProof] := by
  refine ⟨(ingest_mismatch_is_noop (fun _ => Except.ok (0, 0)) (fun _ => false) [4] 5
      [] 1 (by decide)).2.2.1,
    (ingest_mismatch_is_noop (fun _ => Except.ok (0, 0)) (fun _ => false) [4] 5
      [] 1 (by decide)).2.2.2.2 (by decide),
    (ingest_mismatch_is_noop (fun _ => Except.ok (0, 0)) (fun _ => false) [4] 5
      [⟨5, 1, 0⟩, ⟨5, 1, 1⟩] 1 (by decide)).1,
    (ingest_mismatch_is_noop (fun _ => Except.ok (0, 0)) (fun _ => false) [4] 5
      [⟨5, 1, 0⟩, ⟨5, 1, 1⟩] 1 (by decide)).2.2.2.1 (by decide)⟩

theorem ingest_bs_mono (into_shreds : List DuplicateShred → Except String (Nat × Nat))
    (store_fails : Nat → Bool) (bs : List Nat) (slot : Nat)
    (chunks : List DuplicateShred) (num_chunks : Nat) (x : Nat) (hx : x ∈ bs) :
    x ∈ (ingest_duplicate_proof_chunk into_shreds store_fails bs slot chunks num_chunks).bs := by
  unfold ingest_duplicate_proof_chunk
  cases hc : compare chunks.length num_chunks
  · simpa using hx
  · cases hi : into_shreds chunks with
    | error e => simpa [hi] using hx
    | ok pr =>
      rcases pr with ⟨p1, p2⟩
      cases hs : store_fails slot
      · simp [hi, hs]
        exact Or.inr hx
      · simpa [hi, hs] using hx
  · simpa using hx

theorem ingest_sent_eq_slot (into_shreds : List DuplicateShred → Except String (Nat × Nat))
    (store_fails : Nat → Bool) (bs : List Nat) (slot : Nat)
    (chunks : List DuplicateShred) (num_chunks : Nat) (x : Nat)
    (hx : x ∈ (ingest_duplicate_proof_chunk into_shreds store_fails bs slot chunks
      num_chunks).sent) :
    x = slot := by
  unfold ingest_duplicate_proof_chunk at hx
  cases hc : compare chunks.length num_chunks <;> rw [hc] at hx
  · simp at hx
  · cases hi : into_shreds chunks with
    | error e => rw [hi] at hx; simp at hx
    | ok pr =>
      rcases pr with ⟨p1, p2⟩
      rw [hi] at hx
      cases hs : store_fails slot <;> rw [hs] at hx <;> simpa using hx
  · simp at hx

theorem insertChunk_slots (m : List (Nat × List DuplicateShred × Nat)) (c : DuplicateShred) :
    (insertChunk m c).map Prod.fst = m.map Prod.fst ∨
    (insertChunk m c).map Prod.fst = m.map Prod.fst ++ [c.slot] := by
  induction m with
  | nil => right; simp [insertChunk]
  | cons hd tl ih =>
    rcases hd with ⟨s1, e1⟩
    by_cases hs : s1 = c.slot
    · left; simp [insertChunk, hs]
    · rcases ih with h | h
      · left; simp [insertChunk, hs, h]
      · right; simp [insertChunk, hs, h]

theorem build_slots_from_chunks (cs : List DuplicateShred)
    (m : List (Nat × List DuplicateShred × Nat)) (s : Nat)
    (h : s ∈ (cs.foldl insertChunk m).map Prod.fst) :
    s ∈ m.map Prod.fst ∨ ∃ c ∈ cs, c.slot = s := by
  induction cs generalizing m with
  | nil => exact Or.inl h
  | cons c cs ih =>
    simp only [List.foldl_cons] at h
    rcases ih (insertChunk m c) h with h1 | h1
    · rcases insertChunk_slots m c with h2 | h2
      · rw [h2] at h1
        exact Or.inl h1
      · rw [h2] at h1
        rcases List.mem_append.mp h1 with h3 | h3
        · exact Or.inl h3
        · exact Or.inr ⟨c, List.mem_cons_self c cs, (List.mem_singleton.mp h3).symm⟩
    · rcases h1 with ⟨c', hc', he⟩
      exact Or.inr ⟨c', List.mem_cons_of_mem _ hc', he⟩

theorem ingestEntries_preserves (into_shreds : List DuplicateShred → Except String (Nat × Nat))
    (store_fails : Nat → Bool) (m : List (Nat × List DuplicateShred × Nat))
    (acc : PassOut) (x : Nat)
    (hbs : x ∈ acc.bs) (hsent : x ∉ acc.sent) (hing : x ∉ acc.ingested)
    (hm : x ∉ m.map Prod.fst) :
    x ∈ (ingestEntries into_shreds store_fails acc m).bs ∧
    x ∉ (ingestEntries into_shreds store_fails acc m).sent ∧
    x ∉ (ingestEntries into_shreds store_fails acc m).ingested := by
  induction m generalizing acc with
  | nil => exact ⟨hbs, hsent, hing⟩
  | cons e m ih =>
    simp only [List.map_cons, List.mem_cons, not_or] at hm
    rcases hm with ⟨hm1, hm2⟩
    show x ∈ (ingestEntries into_shreds store_fails
        (ingestStep into_shreds store_fails acc e) m).bs ∧ _ ∧ _
    apply ih _ _ _ _ hm2
    · exact ingest_bs_mono _ _ _ _ _ _ _ hbs
    · intro hx
      rcases List.mem_append.mp hx with hx | hx
      · exact hsent hx
      · exact hm1 (ingest_sent_eq_slot _ _ _ _ _ _ _ hx)
    · intro hx
      rcases List.mem_append.mp hx with hx | hx
      · exact hing hx
      · exact hm1 (List.mem_singleton.mp hx)

theorem processPubkey_preserves
    (into_shreds : List DuplicateShred → Except String (Nat × Nat))
    (store_fails : Nat → Bool) (acc : PassOut) (cs : List DuplicateShred) (x : Nat)
    (hbs : x ∈ acc.bs) (hsent : x ∉ acc.sent) (hing : x ∉ acc.ingested) :
    x ∈ (processPubkey into_shreds store_fails acc cs).bs ∧
    x ∉ (processPubkey into_shreds store_fails acc cs).sent ∧
    x ∉ (processPubkey into_shreds store_fails acc cs).ingested := by
  apply ingestEntries_preserves _ _ _ _ _ hbs hsent hing
  intro hx
  rcases build_slots_from_chunks _ [] x hx with h | ⟨c, hc, he⟩
  · simp at h
  · have h2 := (List.mem_filter.mp hc).2
    exact (of_decide_eq_true h2) (he ▸ hbs)

/-- Claim C5: a slot that the blockstore already reports as duplicate at the
start of an aggregation pass is filtered out of every peer's chunk stream, so
it is neither ingested nor sent on the duplicate-slot channel during the
pass. -/
theorem pass_never_touches_known_duplicate
    (into_shreds : List DuplicateShred → Except String (Nat × Nat))
    (store_fails : Nat → Bool) (bs0 : List Nat) (views : List (List DuplicateShred))
    (s : Nat) (h : s ∈ bs0) :
    s ∉ (processPass into_shreds store_fails bs0 views).sent ∧
    s ∉ (processPass into_shreds store_fails bs0 views).ingested := by
  suffices hgen : ∀ acc : PassOut, s ∈ acc.bs → s ∉ acc.sent → s ∉ acc.ingested →
      s ∈ (views.foldl (processPubkey into_shreds store_fails) acc).bs ∧
      s ∉ (views.foldl (processPubkey into_shreds store_fails) acc).sent ∧
      s ∉ (views.foldl (processPubkey into_shreds store_fails) acc).ingested by
    have hx := hgen ⟨bs0, [], []⟩ h (by simp) (by simp)
    exact ⟨hx.2.1, hx.2.2⟩
  induction views with
  | nil => exact fun acc h1 h2 h3 => ⟨h1, h2, h3⟩
  | cons v vs ih =>
    intro acc h1 h2 h3
    simp only [List.foldl_cons]
    have hp := processPubkey_preserves into_shreds store_fails acc v s h1 h2 h3
    exact ih _ hp.1 hp.2.1 hp.2.2

/-- Witness for `pass_never_touches_known_duplicate`: slot `5` pre-seeded in
the blockstore, one peer advertising a complete proof for slot `5`. -/
theorem pass_never_touches_known_duplicate_witness :
    5 ∉ (processPass (fun _ => Except.ok (0, 0)) (fun _ => false) [5]
        [[⟨5, 1, 0⟩]]).sent ∧
    5 ∉ (processPass (fun _ => Except.ok (0, 0)) (fun _ => false) [5]
        [[⟨5, 1, 0⟩]]).ingested :=
  pass_never_touches_known_duplicate (fun _ => Except.ok (0, 0)) (fun _ => false) [5]
    [[⟨5, 1, 0⟩]] 5 (by decide)

theorem lookupSlotEntry_insertChunk (m : List (Nat × List DuplicateShred × Nat))
    (c : DuplicateShred) (s : Nat) :
    lookupSlotEntry (insertChunk m c) s =
      if c.slot = s then
        match lookupSlotEntry m s with
        | some (chs, n) => some (chs ++ [c], n)
        | none => some ([c], c.num_chunks)
      else lookupSlotEntry m s := by
  induction m with
  | nil => by_cases h : c.slot = s <;> simp [insertChunk, lookupSlotEntry, h]
  | cons hd tl ih =>
    rcases hd with ⟨s1, chs1, n1⟩
    by_cases h1 : s1 = c.slot
    · by_cases h2 : s1 = s
      · have hcs : c.slot = s := h1.symm.trans h2
        simp [insertChunk, lookupSlotEntry, h1, h2, hcs]
      · have hcs : ¬ c.slot = s := fun hh => h2 (h1.trans hh)
        simp [insertChunk, lookupSlotEntry, h1, h2, hcs]
    · by_cases h2 : s1 = s
      · have hcs : ¬ c.slot = s := fun hh => h1 (h2.trans hh.symm)
        have hsc : ¬ s = c.slot := fun hh => hcs hh.symm
        simp [insertChunk, lookupSlotEntry, h1, h2, hcs, hsc]
      · simp [insertChunk, lookupSlotEntry, h1, h2, ih]

theorem build_num_from_first (cs : List DuplicateShred)
    (m : List (Nat × List DuplicateShred × Nat)) (s : Nat) :
    (lookupSlotEntry (cs.foldl insertChunk m) s).map Prod.snd =
      (match lookupSlotEntry m s with
       | some e => some e.2
       | none => (cs.find? (fun c => c.slot == s)).map DuplicateShred.num_chunks) := by
  induction cs generalizing m with
  | nil =>
    simp only [List.foldl_nil, List.find?_nil]
    cases lookupSlotEntry m s <;> simp
  | cons c cs ih =>
    simp only [List.foldl_cons]
    rw [ih (insertChunk m c), lookupSlotEntry_insertChunk]
    by_cases hcs : c.slot = s
    · rw [if_pos hcs]
      cases hm : lookupSlotEntry m s with
      | some e => rcases e with ⟨chs, n⟩; simp
      | none => simp [List.find?_cons, hcs]
    · rw [if_neg hcs]
      cases hm : lookupSlotEntry m s with
      | some e => simp
      | none => simp [List.find?_cons, hcs]

/-- Claim C10: the `num_chunks` recorded for a slot in the per-pass
`chunks_per_slot` map is the `num_chunks` field of the first chunk inserted for
that slot; the fields of all later chunks for the same slot are ignored. -/
theorem chunks_per_slot_num_from_first (cs : List DuplicateShred) (s : Nat)
    (chs : List DuplicateShred) (n : Nat)
    (h : lookupSlotEntry (buildChunksPerSlot cs) s = some (chs, n)) :
    ∃ c, cs.find? (fun c => c.slot == s) = some c ∧ c.num_chunks = n := by
  have hb := build_num_from_first cs [] s
  unfold buildChunksPerSlot at h
  rw [h] at hb
  simp only [lookupSlotEntry, Option.map_some'] at hb
  exact Option.map_eq_some'.mp hb.symm

/-- Witness for `chunks_per_slot_num_from_first`: two chunks for slot `5`
disagreeing on `num_chunks` (`2` then `3`); the recorded value is `2`, from the
first chunk. -/
theorem chunks_per_slot_num_from_first_witness :
    ∃ c, [(⟨5, 2, 0⟩ : DuplicateShred), ⟨5, 3, 1⟩].find? (fun c => c.slot == 5) = some c ∧
      c.num_chunks = 2 :=
  chunks_per_slot_num_from_first [⟨5, 2, 0⟩, ⟨5, 3, 1⟩] 5 [⟨5, 2, 0⟩, ⟨5, 3, 1⟩] 2 (by decide)

end Solana
